import Mathlib

/-!
Verification of the wizards-wallet serialization core: the byte codec
for the peer handshake and keepalive messages (version, verack, ping,
pong) and the composite derivation mechanism of src/bitcoin/macros.rs
and src/bitcoin/network/message_network.rs.

Bytes are modelled as natural numbers below 256 inside a List Nat; the
Rust String values are modelled by their UTF-8 byte sequences. The
primitive codecs (fixed-width little-endian integers, the variable
length integer, length-prefixed strings, single-byte booleans), the
network address codec, the socket record, the protocol constants and
the error helper prepend_err live in modules of the repository that are
not part of the provided sources; those are modelled from the spec and
carry a doc comment saying so. Everything else is translated directly
from the Rust sources.
-/

namespace WizardsWallet

/-- Modelled from the spec: the decode failure value (IoError of the
missing util module), as a structured error carrying the ordered path
of field names plus an underlying description. -/
structure IoError where
  path : List String
  detail : String
  deriving DecidableEq, Repr

instance {ε α : Type} [DecidableEq ε] [DecidableEq α] : DecidableEq (Except ε α) := fun a b =>
  match a, b with
  | Except.error x, Except.error y =>
    if h : x = y then Decidable.isTrue (by rw [h])
    else Decidable.isFalse (by intro hc; injection hc; contradiction)
  | Except.error _, Except.ok _ => Decidable.isFalse (by intro hc; injection hc)
  | Except.ok _, Except.error _ => Decidable.isFalse (by intro hc; injection hc)
  | Except.ok x, Except.ok y =>
    if h : x = y then Decidable.isTrue (by rw [h])
    else Decidable.isFalse (by intro hc; injection hc; contradiction)

/-- Modelled from the spec: prepend_err of the missing util::misc
module wraps a decode failure with the enclosing field name. -/
def prepend_err {α : Type} (name : String) : Except IoError α → Except IoError α
  | Except.error e => Except.error { e with path := name :: e.path }
  | Except.ok a => Except.ok a

/-- The truncated-input decode failure. -/
def truncated : IoError := { path := [], detail := "truncated input" }

/-- State-passing composition of decoders over the shared byte cursor:
run the first decoder, then the continuation on the remaining bytes. -/
def dbind {α β : Type} (d : List Nat → Except IoError (α × List Nat))
    (f : α → List Nat → Except IoError (β × List Nat)) :
    List Nat → Except IoError (β × List Nat) :=
  fun s =>
    match d s with
    | Except.error e => Except.error e
    | Except.ok (a, r) => f a r

/-- Decoder returning a value without consuming bytes. -/
def dpure {α : Type} (a : α) : List Nat → Except IoError (α × List Nat) :=
  fun s => Except.ok (a, s)

/-- Modelled from the spec: reading a fixed number of bytes from the
cursor, failing with a truncated-input error when the stream is short. -/
def read_bytes (n : Nat) : List Nat → Except IoError (List Nat × List Nat) :=
  fun s =>
    if n ≤ s.length then Except.ok (s.take n, s.drop n)
    else Except.error truncated

/-- Modelled from the spec: reading a single byte from the cursor. -/
def read_byte : List Nat → Except IoError (Nat × List Nat)
  | [] => Except.error truncated
  | b :: s => Except.ok (b, s)

/-- Little-endian byte decomposition of a natural number into n bytes. -/
def leBytes : Nat → Nat → List Nat
  | 0, _ => []
  | n + 1, v => v % 256 :: leBytes n (v / 256)

/-- Little-endian recomposition of a byte list into a natural number. -/
def leNat : List Nat → Nat
  | [] => 0
  | b :: bs => b + 256 * leNat bs

/-- Modelled from the spec: the u32 codec, four little-endian bytes. -/
def u32_serialize (v : Nat) : List Nat := leBytes 4 v

/-- Modelled from the spec: u32 decode. -/
def u32_deserialize : List Nat → Except IoError (Nat × List Nat) :=
  dbind (read_bytes 4) fun bs => dpure (leNat bs)

/-- Modelled from the spec: the u64 codec, eight little-endian bytes. -/
def u64_serialize (v : Nat) : List Nat := leBytes 8 v

/-- Modelled from the spec: u64 decode. -/
def u64_deserialize : List Nat → Except IoError (Nat × List Nat) :=
  dbind (read_bytes 8) fun bs => dpure (leNat bs)

/-- Modelled from the spec: the i64 codec, eight little-endian bytes of
the two-complement representation. -/
def i64_serialize (v : Int) : List Nat := leBytes 8 (v % (2 : Int) ^ 64).toNat

/-- Modelled from the spec: i64 decode. -/
def i64_deserialize : List Nat → Except IoError (Int × List Nat) :=
  dbind (read_bytes 8) fun bs =>
    dpure (if leNat bs < 2 ^ 63 then (leNat bs : Int) else (leNat bs : Int) - 2 ^ 64)

/-- Modelled from the spec: the i32 codec, four little-endian bytes of
the two-complement representation. -/
def i32_serialize (v : Int) : List Nat := leBytes 4 (v % (2 : Int) ^ 32).toNat

/-- Modelled from the spec: i32 decode. -/
def i32_deserialize : List Nat → Except IoError (Int × List Nat) :=
  dbind (read_bytes 4) fun bs =>
    dpure (if leNat bs < 2 ^ 31 then (leNat bs : Int) else (leNat bs : Int) - 2 ^ 32)

/-- Modelled from the spec: the boolean codec, a single byte. -/
def bool_serialize (b : Bool) : List Nat := [if b then 1 else 0]

/-- Modelled from the spec: boolean decode, any nonzero byte is true. -/
def bool_deserialize : List Nat → Except IoError (Bool × List Nat) :=
  dbind read_byte fun b => dpure (b != 0)

/-- Modelled from the spec: the variable-length integer codec of the
wire format (one tag byte, then zero, two, four or eight bytes). -/
def varint_serialize (n : Nat) : List Nat :=
  if n < 0xfd then [n]
  else if n ≤ 0xffff then 0xfd :: leBytes 2 n
  else if n ≤ 0xffffffff then 0xfe :: leBytes 4 n
  else 0xff :: leBytes 8 n

/-- Modelled from the spec: variable-length integer decode. -/
def varint_deserialize : List Nat → Except IoError (Nat × List Nat) :=
  dbind read_byte fun b =>
    if b = 0xfd then dbind (read_bytes 2) fun bs => dpure (leNat bs)
    else if b = 0xfe then dbind (read_bytes 4) fun bs => dpure (leNat bs)
    else if b = 0xff then dbind (read_bytes 8) fun bs => dpure (leNat bs)
    else dpure b

/-- Modelled from the spec: the string codec, a variable-length integer
length prefix followed by the raw UTF-8 bytes; a Rust String value is
represented by its UTF-8 byte sequence. -/
def str_serialize (s : List Nat) : List Nat := varint_serialize s.length ++ s

/-- Modelled from the spec: string decode. -/
def str_deserialize : List Nat → Except IoError (List Nat × List Nat) :=
  dbind varint_deserialize fun n => read_bytes n

/-- Modelled from the spec: the network address collaborator (the file
network/address.rs is outside the provided sources). Wire layout per
the protocol: services as u64 little-endian, sixteen raw address
bytes, then the port as a big-endian u16. -/
structure Address where
  services : Nat
  address : List Nat
  port : Nat
  deriving DecidableEq, Repr

/-- Modelled from the spec: address encode. -/
def Address.serialize (a : Address) : List Nat :=
  u64_serialize a.services ++ a.address ++ [a.port / 256 % 256, a.port % 256]

/-- Modelled from the spec: address decode. -/
def Address.deserialize : List Nat → Except IoError (Address × List Nat) :=
  dbind u64_deserialize fun services =>
  dbind (read_bytes 16) fun address =>
  dbind read_byte fun hi =>
  dbind read_byte fun lo =>
  dpure { services := services, address := address, port := 256 * hi + lo }

/-- Modelled from the spec: the transport socket collaborator (the file
network/socket.rs is outside the provided sources); it supplies the two
peer addresses (either may fail when not connected), a service bitmask
and a user-agent string. -/
structure Socket where
  receiver_address : Except IoError Address
  sender_address : Except IoError Address
  services : Nat
  user_agent : List Nat

/-- Modelled from the spec: the protocol version constant of the
missing network/constants.rs module; the claims depend only on it
being a fixed compile-time constant. -/
def PROTOCOL_VERSION : Nat := 70001

/-- The version message, from src/bitcoin/network/message_network.rs. -/
structure VersionMessage where
  version : Nat
  services : Nat
  timestamp : Int
  receiver : Address
  sender : Address
  nonce : Nat
  user_agent : List Nat
  start_height : Int
  relay : Bool
  deriving DecidableEq, Repr

/-- VersionMessage::serialize, translated from the source: the eight
leading fields concatenated in declared order, then the relay byte
exactly when the version field is at least 70001. -/
def VersionMessage.serialize (m : VersionMessage) : List Nat :=
  u32_serialize m.version ++
  u64_serialize m.services ++
  i64_serialize m.timestamp ++
  m.receiver.serialize ++
  m.sender.serialize ++
  u64_serialize m.nonce ++
  str_serialize m.user_agent ++
  i32_serialize m.start_height ++
  (if 70001 ≤ m.version then bool_serialize m.relay else [])

/-- VersionMessage::deserialize, translated from the source: all nine
fields are read in declared order, the relay read being unconditional
and no field name being prepended to failures. -/
def VersionMessage.deserialize : List Nat → Except IoError (VersionMessage × List Nat) :=
  dbind u32_deserialize fun version =>
  dbind u64_deserialize fun services =>
  dbind i64_deserialize fun timestamp =>
  dbind Address.deserialize fun receiver =>
  dbind Address.deserialize fun sender =>
  dbind u64_deserialize fun nonce =>
  dbind str_deserialize fun user_agent =>
  dbind i32_deserialize fun start_height =>
  dbind bool_deserialize fun relay =>
  dpure { version := version, services := services, timestamp := timestamp,
          receiver := receiver, sender := sender, nonce := nonce,
          user_agent := user_agent, start_height := start_height, relay := relay }

/-- VersionMessage::new, translated from the source: propagate an
address failure from the socket, otherwise build the message with the
protocol version constant, the socket services and user agent, and
relay fixed to false. -/
def VersionMessage.new (timestamp : Int) (socket : Socket) (nonce : Nat)
    (start_height : Int) : Except IoError VersionMessage :=
  match socket.receiver_address with
  | Except.error e => Except.error e
  | Except.ok recv =>
    match socket.sender_address with
    | Except.error e => Except.error e
    | Except.ok send =>
      Except.ok { version := PROTOCOL_VERSION, services := socket.services,
                  timestamp := timestamp, receiver := recv, sender := send,
                  nonce := nonce, user_agent := socket.user_agent,
                  start_height := start_height, relay := false }

/-- The verack message, from the source: a zero-field struct. -/
structure VersionAckMessage where
  deriving DecidableEq, Repr

/-- Serializable for VersionAckMessage: serialize is the empty vector. -/
def VersionAckMessage.serialize (_ : VersionAckMessage) : List Nat := []

/-- Serializable for VersionAckMessage: deserialize ignores the stream
and succeeds. -/
def VersionAckMessage.deserialize : List Nat → Except IoError (VersionAckMessage × List Nat) :=
  dpure {}

/-- The ping message, from the source: a single nonce field. -/
structure PingMessage where
  nonce : Nat
  deriving DecidableEq, Repr

/-- Expansion of impl_serializable for PingMessage: serialize is the
concatenation of the field encodings, here the sole nonce field. -/
def PingMessage.serialize (m : PingMessage) : List Nat := u64_serialize m.nonce

/-- Expansion of impl_serializable for PingMessage: deserialize reads
each field in declared order, wrapping a failure with the field name
through prepend_err. -/
def PingMessage.deserialize : List Nat → Except IoError (PingMessage × List Nat) :=
  dbind (fun s => prepend_err "nonce" (u64_deserialize s)) fun nonce =>
  dpure { nonce := nonce }

/-- Modelled from the spec: the byte sequence yielded by the lazy
producer of the missing SerializeIter driver; the field list in
declared order comes from the impl_serializable expansion in the
source, and each primitive lazy producer yields the same bytes as its
eager encode. -/
def PingMessage.serialize_iter_bytes (m : PingMessage) : List Nat :=
  List.flatten [u64_serialize m.nonce]

/-- The pong message, from the source: a single nonce field. -/
structure PongMessage where
  nonce : Nat
  deriving DecidableEq, Repr

/-- Expansion of impl_serializable for PongMessage. -/
def PongMessage.serialize (m : PongMessage) : List Nat := u64_serialize m.nonce

/-- Expansion of impl_serializable for PongMessage. -/
def PongMessage.deserialize : List Nat → Except IoError (PongMessage × List Nat) :=
  dbind (fun s => prepend_err "nonce" (u64_deserialize s)) fun nonce =>
  dpure { nonce := nonce }

/-- Modelled from the spec: the lazy producer bytes for PongMessage,
as for PingMessage. -/
def PongMessage.serialize_iter_bytes (m : PongMessage) : List Nat :=
  List.flatten [u64_serialize m.nonce]

/-- The concatenation of the eight leading field encodings of a
version message, the part of VersionMessage::serialize before the
conditional relay byte. -/
def versionPayloadBody (m : VersionMessage) : List Nat :=
  u32_serialize m.version ++
  u64_serialize m.services ++
  i64_serialize m.timestamp ++
  m.receiver.serialize ++
  m.sender.serialize ++
  u64_serialize m.nonce ++
  str_serialize m.user_agent ++
  i32_serialize m.start_height

/-- Well-formedness of an address value: fields within the machine
widths of the source and exactly sixteen address bytes. -/
def Address.WF (a : Address) : Prop :=
  a.services < 2 ^ 64 ∧ a.address.length = 16 ∧ a.port < 2 ^ 16

/-- Well-formedness of a version message value: fields within the
machine widths of the source. -/
def VersionMessage.WF (m : VersionMessage) : Prop :=
  m.version < 2 ^ 32 ∧ m.services < 2 ^ 64 ∧
  -(2 : Int) ^ 63 ≤ m.timestamp ∧ m.timestamp < 2 ^ 63 ∧
  m.receiver.WF ∧ m.sender.WF ∧ m.nonce < 2 ^ 64 ∧
  m.user_agent.length < 2 ^ 64 ∧
  -(2 : Int) ^ 31 ≤ m.start_height ∧ m.start_height < 2 ^ 31

/-- A decoder consumes a definite prefix of its input: on success the
input splits into consumed bytes plus the remainder, and the decoder
gives the same value on the consumed bytes followed by anything. -/
def Consumes {α : Type} (d : List Nat → Except IoError (α × List Nat)) : Prop :=
  ∀ s v r, d s = Except.ok (v, r) →
    ∃ c, s = c ++ r ∧ ∀ t, d (c ++ t) = Except.ok (v, t)

/-- The UTF-8 byte sequence of an ASCII string: for ASCII text the
UTF-8 bytes coincide with the character codes. -/
def asciiBytes (s : String) : List Nat := s.data.map Char.toNat

/-- The captured version payload of the version_message_test in the
source (hex string decoded to bytes). -/
def fromSat : List Nat :=
  [114, 17, 1, 0, 1, 0, 0, 0, 0, 0, 0, 0, 230, 224, 132, 83, 0, 0, 0, 0,
   1, 0, 0, 0, 0, 0, 0, 0, 0, 0, 0, 0, 0, 0, 0, 0, 0, 0, 255, 255, 0, 0, 0, 0, 0, 0,
   1, 0, 0, 0, 0, 0, 0, 0, 253, 135, 216, 126, 235, 67, 100, 242, 44, 245, 77, 202, 89, 65, 45, 183, 32, 141,
   71, 217, 32, 207, 252, 232, 62, 232,
   16, 47, 83, 97, 116, 111, 115, 104, 105, 58, 48, 46, 57, 46, 57, 57, 47,
   44, 159, 4, 0, 1]

/-- The message the captured payload decodes to. -/
def satDecoded : VersionMessage :=
  { version := 70002, services := 1, timestamp := 1401217254,
    receiver := { services := 1,
                  address := [0, 0, 0, 0, 0, 0, 0, 0, 0, 0, 255, 255, 0, 0, 0, 0],
                  port := 0 },
    sender := { services := 1,
                address := [253, 135, 216, 126, 235, 67, 100, 242, 44, 245, 77, 202, 89, 65, 45, 183],
                port := 8333 },
    nonce := 16735069437859780935,
    user_agent := asciiBytes "/Satoshi:0.9.99/",
    start_height := 302892, relay := true }

/-- A concrete address fixture. -/
def addr0 : Address := { services := 0, address := List.replicate 16 0, port := 0 }

/-- A concrete connected socket fixture with a nonzero service mask. -/
def sockW : Socket :=
  { receiver_address := Except.ok addr0, sender_address := Except.ok addr0,
    services := 1, user_agent := [] }

/-- The message VersionMessage.new builds from sockW. -/
def msgW : VersionMessage :=
  { version := 70001, services := 1, timestamp := 0, receiver := addr0,
    sender := addr0, nonce := 0, user_agent := [], start_height := 0,
    relay := false }

/-- A concrete version message with a pre-70001 version field. -/
def vm70000 : VersionMessage :=
  { version := 70000, services := 0, timestamp := 0, receiver := addr0,
    sender := addr0, nonce := 0, user_agent := [], start_height := 0,
    relay := false }

theorem length_leBytes (n v : Nat) : (leBytes n v).length = n := by
  induction n generalizing v with
  | zero => rfl
  | succ n ih => simp [leBytes, ih]

theorem leNat_leBytes (n v : Nat) : leNat (leBytes n v) = v % 256 ^ n := by
  induction n generalizing v with
  | zero => simp [leBytes, leNat, Nat.mod_one]
  | succ n ih => rw [leBytes, leNat, ih, pow_succ', Nat.mod_mul]

theorem read_bytes_append (a r : List Nat) :
    read_bytes a.length (a ++ r) = Except.ok (a, r) := by
  simp [read_bytes, List.take_left, List.drop_left]

theorem read_bytes_exact {n : Nat} {a : List Nat} (h : a.length = n) (r : List Nat) :
    read_bytes n (a ++ r) = Except.ok (a, r) := by
  subst h; exact read_bytes_append a r

theorem u32_rt {v : Nat} (h : v < 2 ^ 32) (r : List Nat) :
    u32_deserialize (u32_serialize v ++ r) = Except.ok (v, r) := by
  unfold u32_deserialize dbind u32_serialize
  rw [read_bytes_exact (length_leBytes 4 v) r]
  simp only [dpure, leNat_leBytes]
  rw [Nat.mod_eq_of_lt (show v < 256 ^ 4 by omega)]

theorem u64_rt {v : Nat} (h : v < 2 ^ 64) (r : List Nat) :
    u64_deserialize (u64_serialize v ++ r) = Except.ok (v, r) := by
  unfold u64_deserialize dbind u64_serialize
  rw [read_bytes_exact (length_leBytes 8 v) r]
  simp only [dpure, leNat_leBytes]
  rw [Nat.mod_eq_of_lt (show v < 256 ^ 8 by omega)]

theorem i64_rt {v : Int} (h1 : -(2 : Int) ^ 63 ≤ v) (h2 : v < 2 ^ 63) (r : List Nat) :
    i64_deserialize (i64_serialize v ++ r) = Except.ok (v, r) := by
  unfold i64_deserialize dbind i64_serialize
  rw [read_bytes_exact (length_leBytes 8 _) r]
  have hv : leNat (leBytes 8 (v % (2 : Int) ^ 64).toNat) = (v % (2 : Int) ^ 64).toNat := by
    rw [leNat_leBytes]
    exact Nat.mod_eq_of_lt (by omega)
  simp only [dpure, hv]
  have hval : (if (v % (2 : Int) ^ 64).toNat < 2 ^ 63 then ((v % (2 : Int) ^ 64).toNat : Int)
      else ((v % (2 : Int) ^ 64).toNat : Int) - 2 ^ 64) = v := by
    split <;> omega
  rw [hval]

theorem i32_rt {v : Int} (h1 : -(2 : Int) ^ 31 ≤ v) (h2 : v < 2 ^ 31) (r : List Nat) :
    i32_deserialize (i32_serialize v ++ r) = Except.ok (v, r) := by
  unfold i32_deserialize dbind i32_serialize
  rw [read_bytes_exact (length_leBytes 4 _) r]
  have hv : leNat (leBytes 4 (v % (2 : Int) ^ 32).toNat) = (v % (2 : Int) ^ 32).toNat := by
    rw [leNat_leBytes]
    exact Nat.mod_eq_of_lt (by omega)
  simp only [dpure, hv]
  have hval : (if (v % (2 : Int) ^ 32).toNat < 2 ^ 31 then ((v % (2 : Int) ^ 32).toNat : Int)
      else ((v % (2 : Int) ^ 32).toNat : Int) - 2 ^ 32) = v := by
    split <;> omega
  rw [hval]

theorem bool_rt (b : Bool) (r : List Nat) :
    bool_deserialize (bool_serialize b ++ r) = Except.ok (b, r) := by
  cases b <;> simp [bool_deserialize, bool_serialize, dbind, read_byte, dpure]

theorem varint_deserialize_cons (b : Nat) (r : List Nat) :
    varint_deserialize (b :: r) =
      if b = 0xfd then dbind (read_bytes 2) (fun bs => dpure (leNat bs)) r
      else if b = 0xfe then dbind (read_bytes 4) (fun bs => dpure (leNat bs)) r
      else if b = 0xff then dbind (read_bytes 8) (fun bs => dpure (leNat bs)) r
      else Except.ok (b, r) := by
  simp only [varint_deserialize, dbind, read_byte, dpure]
  split_ifs <;> simp [dbind, dpure]

theorem varint_rt {n : Nat} (h : n < 2 ^ 64) (r : List Nat) :
    varint_deserialize (varint_serialize n ++ r) = Except.ok (n, r) := by
  unfold varint_serialize
  by_cases h1 : n < 0xfd
  · rw [if_pos h1, List.cons_append, List.nil_append, varint_deserialize_cons]
    have h2 : ¬ n = 0xfd := by omega
    have h3 : ¬ n = 0xfe := by omega
    have h4 : ¬ n = 0xff := by omega
    rw [if_neg h2, if_neg h3, if_neg h4]
  · by_cases h2 : n ≤ 0xffff
    · rw [if_neg h1, if_pos h2, List.cons_append, varint_deserialize_cons,
        if_pos rfl]
      unfold dbind
      rw [read_bytes_exact (length_leBytes 2 n) r]
      simp only [dpure, leNat_leBytes]
      rw [Nat.mod_eq_of_lt (show n < 256 ^ 2 by omega)]
    · by_cases h3 : n ≤ 0xffffffff
      · rw [if_neg h1, if_neg h2, if_pos h3, List.cons_append, varint_deserialize_cons,
          if_neg (by omega), if_pos rfl]
        unfold dbind
        rw [read_bytes_exact (length_leBytes 4 n) r]
        simp only [dpure, leNat_leBytes]
        rw [Nat.mod_eq_of_lt (show n < 256 ^ 4 by omega)]
      · rw [if_neg h1, if_neg h2, if_neg h3, List.cons_append, varint_deserialize_cons,
          if_neg (by omega), if_neg (by omega), if_pos rfl]
        unfold dbind
        rw [read_bytes_exact (length_leBytes 8 n) r]
        simp only [dpure, leNat_leBytes]
        rw [Nat.mod_eq_of_lt (show n < 256 ^ 8 by omega)]

theorem str_rt {ua : List Nat} (h : ua.length < 2 ^ 64) (r : List Nat) :
    str_deserialize (str_serialize ua ++ r) = Except.ok (ua, r) := by
  unfold str_deserialize str_serialize dbind
  rw [List.append_assoc, varint_rt h (ua ++ r)]
  exact read_bytes_append ua r

theorem addr_rt {a : Address} (h : a.WF) (r : List Nat) :
    Address.deserialize (Address.serialize a ++ r) = Except.ok (a, r) := by
  obtain ⟨hs, hl, hp⟩ := h
  have hport : 256 * (a.port / 256 % 256) + a.port % 256 = a.port := by omega
  unfold Address.deserialize Address.serialize
  simp only [List.append_assoc, List.cons_append, List.nil_append]
  simp only [dbind, u64_rt hs]
  rw [read_bytes_exact hl (a.port / 256 % 256 :: a.port % 256 :: r)]
  simp [read_byte, dpure, hport]

theorem serialize_eq_body (m : VersionMessage) :
    m.serialize = versionPayloadBody m ++
      (if 70001 ≤ m.version then bool_serialize m.relay else []) := by
  unfold VersionMessage.serialize versionPayloadBody
  simp [List.append_assoc]

theorem deserialize_body (m : VersionMessage) (h : m.WF) (r : List Nat) :
    VersionMessage.deserialize (versionPayloadBody m ++ r) =
      match bool_deserialize r with
      | Except.error e => Except.error e
      | Except.ok (b, r2) => Except.ok ({ m with relay := b }, r2) := by
  obtain ⟨h1, h2, h3, h4, h5, h6, h7, h8, h9, h10⟩ := h
  unfold VersionMessage.deserialize versionPayloadBody
  simp only [List.append_assoc]
  simp only [dbind, u32_rt h1, u64_rt h2, i64_rt h3 h4, addr_rt h5, addr_rt h6,
    u64_rt h7, str_rt h8, i32_rt h9 h10]
  cases hb : bool_deserialize r with
  | error e => rfl
  | ok p =>
    obtain ⟨b, r2⟩ := p
    rfl

theorem vm_roundtrip (m : VersionMessage) (h : m.WF) (h70 : 70001 ≤ m.version) :
    VersionMessage.deserialize m.serialize = Except.ok (m, []) := by
  rw [serialize_eq_body, if_pos h70, deserialize_body m h (bool_serialize m.relay)]
  have hb := bool_rt m.relay []
  rw [List.append_nil] at hb
  rw [hb]

theorem vm_fullfail (m : VersionMessage) (h : m.WF) (h70 : m.version < 70001) :
    VersionMessage.deserialize m.serialize = Except.error truncated := by
  rw [serialize_eq_body, if_neg (by omega), List.append_nil]
  have hd := deserialize_body m h []
  rw [List.append_nil] at hd
  rw [hd]
  rfl

theorem consumes_dpure {α : Type} (a : α) : Consumes (dpure a) := by
  intro s v r h
  simp only [dpure, Except.ok.injEq, Prod.mk.injEq] at h
  obtain ⟨rfl, rfl⟩ := h
  exact ⟨[], by simp [dpure]⟩

theorem consumes_read_bytes (n : Nat) : Consumes (read_bytes n) := by
  intro s v r h
  unfold read_bytes at h
  split at h
  · rename_i hn
    simp only [Except.ok.injEq, Prod.mk.injEq] at h
    obtain ⟨rfl, rfl⟩ := h
    refine ⟨s.take n, (List.take_append_drop n s).symm, fun t => ?_⟩
    exact read_bytes_exact (by rw [List.length_take]; omega) t
  · exact absurd h (by simp)

theorem consumes_read_byte : Consumes read_byte := by
  intro s v r h
  cases s with
  | nil => exact absurd h (by simp [read_byte])
  | cons b s =>
    simp only [read_byte, Except.ok.injEq, Prod.mk.injEq] at h
    obtain ⟨rfl, rfl⟩ := h
    exact ⟨[b], rfl, fun t => rfl⟩

theorem consumes_dbind {α β : Type} {d : List Nat → Except IoError (α × List Nat)}
    {f : α → List Nat → Except IoError (β × List Nat)}
    (hd : Consumes d) (hf : ∀ a, Consumes (f a)) : Consumes (dbind d f) := by
  intro s v r h
  unfold dbind at h
  cases h1 : d s with
  | error e => rw [h1] at h; exact absurd h (by simp)
  | ok p =>
    obtain ⟨a, r1⟩ := p
    rw [h1] at h
    obtain ⟨c1, hs, hc1⟩ := hd s a r1 h1
    obtain ⟨c2, hr1, hc2⟩ := hf a r1 v r h
    subst hs
    subst hr1
    refine ⟨c1 ++ c2, by simp [List.append_assoc], fun t => ?_⟩
    unfold dbind
    rw [List.append_assoc, hc1 (c2 ++ t)]
    exact hc2 t

theorem consumes_prepend {α : Type} (name : String)
    {d : List Nat → Except IoError (α × List Nat)} (hd : Consumes d) :
    Consumes (fun s => prepend_err name (d s)) := by
  intro s v r h
  have h0 : prepend_err name (d s) = Except.ok (v, r) := h
  have h1 : d s = Except.ok (v, r) := by
    cases h2 : d s with
    | error e => rw [h2] at h0; exact absurd h0 (by simp [prepend_err])
    | ok p => rw [h2] at h0; simpa [prepend_err] using h0
  obtain ⟨c, hs, hc⟩ := hd s v r h1
  refine ⟨c, hs, fun t => ?_⟩
  show prepend_err name (d (c ++ t)) = Except.ok (v, t)
  rw [hc t]
  rfl

theorem consumes_u32 : Consumes u32_deserialize := by
  unfold u32_deserialize
  exact consumes_dbind (consumes_read_bytes 4) fun bs => consumes_dpure (leNat bs)

theorem consumes_u64 : Consumes u64_deserialize := by
  unfold u64_deserialize
  exact consumes_dbind (consumes_read_bytes 8) fun bs => consumes_dpure (leNat bs)

theorem consumes_i64 : Consumes i64_deserialize := by
  unfold i64_deserialize
  exact consumes_dbind (consumes_read_bytes 8) fun bs => consumes_dpure _

theorem consumes_i32 : Consumes i32_deserialize := by
  unfold i32_deserialize
  exact consumes_dbind (consumes_read_bytes 4) fun bs => consumes_dpure _

theorem consumes_bool : Consumes bool_deserialize := by
  unfold bool_deserialize
  exact consumes_dbind consumes_read_byte fun b => consumes_dpure _

theorem consumes_varint : Consumes varint_deserialize := by
  unfold varint_deserialize
  refine consumes_dbind consumes_read_byte fun b => ?_
  by_cases h1 : b = 0xfd
  · simp only [h1, if_pos rfl]
    exact consumes_dbind (consumes_read_bytes 2) fun bs => consumes_dpure _
  · by_cases h2 : b = 0xfe
    · simp only [if_neg h1, h2, if_pos rfl]
      exact consumes_dbind (consumes_read_bytes 4) fun bs => consumes_dpure _
    · by_cases h3 : b = 0xff
      · simp only [if_neg h1, if_neg h2, h3, if_pos rfl]
        exact consumes_dbind (consumes_read_bytes 8) fun bs => consumes_dpure _
      · simp only [if_neg h1, if_neg h2, if_neg h3]
        exact consumes_dpure b

theorem consumes_str : Consumes str_deserialize := by
  unfold str_deserialize
  exact consumes_dbind consumes_varint fun n => consumes_read_bytes n

theorem consumes_addr : Consumes Address.deserialize := by
  unfold Address.deserialize
  exact consumes_dbind consumes_u64 fun _ =>
    consumes_dbind (consumes_read_bytes 16) fun _ =>
    consumes_dbind consumes_read_byte fun _ =>
    consumes_dbind consumes_read_byte fun _ => consumes_dpure _

theorem consumes_vm : Consumes VersionMessage.deserialize := by
  unfold VersionMessage.deserialize
  exact consumes_dbind consumes_u32 fun _ =>
    consumes_dbind consumes_u64 fun _ =>
    consumes_dbind consumes_i64 fun _ =>
    consumes_dbind consumes_addr fun _ =>
    consumes_dbind consumes_addr fun _ =>
    consumes_dbind consumes_u64 fun _ =>
    consumes_dbind consumes_str fun _ =>
    consumes_dbind consumes_i32 fun _ =>
    consumes_dbind consumes_bool fun _ => consumes_dpure _

theorem consumes_take_error {α : Type} {d : List Nat → Except IoError (α × List Nat)}
    (hc : Consumes d) {s : List Nat}
    (hfull : (∃ v, d s = Except.ok (v, [])) ∨ ∃ e, d s = Except.error e)
    {k : Nat} (hk : k < s.length) : ∃ e, d (s.take k) = Except.error e := by
  cases hp : d (s.take k) with
  | error e => exact ⟨e, rfl⟩
  | ok p =>
    obtain ⟨v2, r2⟩ := p
    obtain ⟨c, hc1, hc2⟩ := hc (s.take k) v2 r2 hp
    have hs : s = c ++ (r2 ++ s.drop k) := by
      conv_lhs => rw [← List.take_append_drop k s]
      rw [hc1, List.append_assoc]
    have hds : d s = Except.ok (v2, r2 ++ s.drop k) := by
      conv_lhs => rw [hs]
      exact hc2 (r2 ++ s.drop k)
    rcases hfull with ⟨v, hv⟩ | ⟨e, he⟩
    · rw [hds] at hv
      simp only [Except.ok.injEq, Prod.mk.injEq] at hv
      have hnil : s.drop k = [] := List.append_eq_nil.mp hv.2 |>.2
      have : s.length ≤ k := by
        have := congrArg List.length hnil
        simp [List.length_drop] at this
        omega
      omega
    · rw [hds] at he
      exact absurd he (by simp)

/-- C1 counterexample: the round-trip law fails on the code for a
VersionMessage with version 70000, because serialize omits the relay
byte while deserialize unconditionally reads it, so decoding the
encoding fails with a truncated-input error instead of returning the
original value. -/
theorem roundtrip_fails_below_70001 :
    VersionMessage.deserialize (VersionMessage.serialize
      { version := 70000, services := 0, timestamp := 0,
        receiver := { services := 0, address := List.replicate 16 0, port := 0 },
        sender := { services := 0, address := List.replicate 16 0, port := 0 },
        nonce := 1, user_agent := [], start_height := 0, relay := false }) =
      Except.error { path := [], detail := "truncated input" } := by
  decide

/-- C1 amended: decoding the bytes produced by serialize yields the
original value together with an empty remainder for every PingMessage,
PongMessage and VersionAckMessage within machine widths, and for every
well-formed VersionMessage whose version field is at least 70001. -/
theorem roundtrip_amended :
    (∀ p : PingMessage, p.nonce < 2 ^ 64 →
      PingMessage.deserialize (PingMessage.serialize p) = Except.ok (p, [])) ∧
    (∀ q : PongMessage, q.nonce < 2 ^ 64 →
      PongMessage.deserialize (PongMessage.serialize q) = Except.ok (q, [])) ∧
    (∀ a : VersionAckMessage,
      VersionAckMessage.deserialize (VersionAckMessage.serialize a) = Except.ok (a, [])) ∧
    (∀ m : VersionMessage, m.WF → 70001 ≤ m.version →
      VersionMessage.deserialize (VersionMessage.serialize m) = Except.ok (m, [])) := by
  refine ⟨fun p hp => ?_, fun q hq => ?_, fun a => rfl, fun m h h70 => vm_roundtrip m h h70⟩
  · have hu := u64_rt hp []
    rw [List.append_nil] at hu
    simp only [PingMessage.deserialize, PingMessage.serialize, dbind, hu, prepend_err, dpure]
  · have hu := u64_rt hq []
    rw [List.append_nil] at hu
    simp only [PongMessage.deserialize, PongMessage.serialize, dbind, hu, prepend_err, dpure]

/-- C1 witness: the amended round-trip at concrete inputs. -/
theorem roundtrip_amended_witness :
    PingMessage.deserialize (PingMessage.serialize { nonce := 5 }) =
      Except.ok ({ nonce := 5 }, []) ∧
    PongMessage.deserialize (PongMessage.serialize { nonce := 6 }) =
      Except.ok ({ nonce := 6 }, []) ∧
    VersionMessage.deserialize (VersionMessage.serialize satDecoded) =
      Except.ok (satDecoded, []) :=
  ⟨roundtrip_amended.1 { nonce := 5 } (by decide),
   roundtrip_amended.2.1 { nonce := 6 } (by decide),
   roundtrip_amended.2.2.2 satDecoded
     (by unfold VersionMessage.WF Address.WF; decide) (by decide)⟩

/-- C2: VersionMessage.serialize appends the single relay byte exactly
when the version field is at least 70001: with such a version the
encoding is the eight-field body followed by the relay byte, below it
the encoding is the bare body, and two messages differing only in
relay with version below 70001 encode identically. -/
theorem relay_byte_version_gated :
    ∀ (m : VersionMessage) (b : Bool),
      (70001 ≤ m.version →
        VersionMessage.serialize m = versionPayloadBody m ++ bool_serialize m.relay) ∧
      (m.version < 70001 → VersionMessage.serialize m = versionPayloadBody m) ∧
      (m.version < 70001 →
        VersionMessage.serialize { m with relay := b } = VersionMessage.serialize m) := by
  intro m b
  refine ⟨fun h => ?_, fun h => ?_, fun h => ?_⟩
  · rw [serialize_eq_body, if_pos h]
  · rw [serialize_eq_body, if_neg (by omega), List.append_nil]
  · rw [serialize_eq_body, serialize_eq_body]
    have hv : ({ m with relay := b } : VersionMessage).version = m.version := rfl
    rw [hv, if_neg (show ¬ 70001 ≤ m.version by omega),
      if_neg (show ¬ 70001 ≤ m.version by omega), List.append_nil, List.append_nil]
    rfl

/-- C2 witness: the gate at concrete messages on both sides of the
70001 boundary. -/
theorem relay_byte_version_gated_witness :
    VersionMessage.serialize satDecoded =
      versionPayloadBody satDecoded ++ bool_serialize satDecoded.relay ∧
    VersionMessage.serialize vm70000 = versionPayloadBody vm70000 ∧
    VersionMessage.serialize { vm70000 with relay := true } =
      VersionMessage.serialize vm70000 :=
  ⟨(relay_byte_version_gated satDecoded true).1 (by decide),
   (relay_byte_version_gated vm70000 true).2.1 (by decide),
   (relay_byte_version_gated vm70000 true).2.2 (by decide)⟩

/-- C3: what the code does at the failing input of the claim. The
serialization of a version-70000 message carries no trailing relay
byte, and deserializing it fails with a truncated-input error instead
of succeeding with relay defaulted to true as the claim (and the
Defaults-to-true doc comment on the relay field) requires. -/
theorem old_version_payload_decode_truncates :
    VersionMessage.deserialize (VersionMessage.serialize
      { version := 70000, services := 0, timestamp := 0,
        receiver := { services := 0, address := List.replicate 16 0, port := 0 },
        sender := { services := 0, address := List.replicate 16 0, port := 0 },
        nonce := 2, user_agent := [], start_height := 0, relay := true }) =
      Except.error { path := [], detail := "truncated input" } := by
  decide

/-- C4: VersionMessage.deserialize always attempts to read the relay
byte after start_height, whatever the already-decoded version value:
on any well-formed eight-field body followed by one byte it succeeds
consuming that byte as relay, and on the bare body it fails with a
truncated-input error rather than returning. -/
theorem relay_read_unconditional :
    ∀ m : VersionMessage, m.WF →
      (∀ b : Nat, VersionMessage.deserialize (versionPayloadBody m ++ [b]) =
        Except.ok ({ m with relay := b != 0 }, [])) ∧
      VersionMessage.deserialize (versionPayloadBody m) = Except.error truncated := by
  intro m h
  constructor
  · intro b
    rw [deserialize_body m h [b]]
    rfl
  · have hd := deserialize_body m h []
    rw [List.append_nil] at hd
    rw [hd]
    rfl

/-- C4 witness: the unconditional relay read at a concrete pre-70001
message body. -/
theorem relay_read_unconditional_witness :
    VersionMessage.deserialize (versionPayloadBody vm70000 ++ [1]) =
      Except.ok ({ vm70000 with relay := true }, []) ∧
    VersionMessage.deserialize (versionPayloadBody vm70000) = Except.error truncated :=
  ⟨(relay_read_unconditional vm70000 (by unfold VersionMessage.WF Address.WF; decide)).1 1,
   (relay_read_unconditional vm70000 (by unfold VersionMessage.WF Address.WF; decide)).2⟩

/-- C5: for the macro-derived composites the bytes of the lazy
producer concatenated in field order equal the eager serialize output
byte for byte. -/
theorem lazy_eager_agreement :
    (∀ p : PingMessage, PingMessage.serialize_iter_bytes p = PingMessage.serialize p) ∧
    ∀ q : PongMessage, PongMessage.serialize_iter_bytes q = PongMessage.serialize q := by
  constructor <;> intro x <;>
    simp [PingMessage.serialize_iter_bytes, PingMessage.serialize,
      PongMessage.serialize_iter_bytes, PongMessage.serialize]

/-- C6 counterexample: decoding a strict prefix of a valid
VersionMessage encoding fails, but with an error naming no field: the
hand-written VersionMessage decode never wraps a failure with the
field name, refuting the claim for every composite type. -/
theorem truncation_error_unnamed_in_version_message :
    VersionMessage.deserialize ((VersionMessage.serialize satDecoded).take 10) =
      Except.error { path := [], detail := "truncated input" } := by
  decide

/-- C6 amended: decoding a strict prefix of a valid encoding always
fails; for the macro-derived composites PingMessage and PongMessage
the failure is annotated with the declared field name (nonce), while
for VersionMessage the hand-written decode fails without a field-name
annotation. -/
theorem truncation_fails_named_fields :
    (∀ (p : PingMessage) (k : Nat), k < (PingMessage.serialize p).length →
      PingMessage.deserialize ((PingMessage.serialize p).take k) =
        Except.error { path := ["nonce"], detail := "truncated input" }) ∧
    (∀ (q : PongMessage) (k : Nat), k < (PongMessage.serialize q).length →
      PongMessage.deserialize ((PongMessage.serialize q).take k) =
        Except.error { path := ["nonce"], detail := "truncated input" }) ∧
    (∀ m : VersionMessage, m.WF → ∀ k, k < (VersionMessage.serialize m).length →
      ∃ e, VersionMessage.deserialize ((VersionMessage.serialize m).take k) =
        Except.error e) := by
  refine ⟨fun p k hk => ?_, fun q k hk => ?_, fun m hWF k hk => ?_⟩
  · have hlen : (PingMessage.serialize p).length = 8 := by
      simp [PingMessage.serialize, u64_serialize, length_leBytes]
    rw [hlen] at hk
    have hu : u64_deserialize ((PingMessage.serialize p).take k) = Except.error truncated := by
      unfold u64_deserialize dbind read_bytes
      rw [if_neg (by rw [List.length_take, hlen]; omega)]
    simp only [PingMessage.deserialize, dbind, hu, prepend_err, truncated]
  · have hlen : (PongMessage.serialize q).length = 8 := by
      simp [PongMessage.serialize, u64_serialize, length_leBytes]
    rw [hlen] at hk
    have hu : u64_deserialize ((PongMessage.serialize q).take k) = Except.error truncated := by
      unfold u64_deserialize dbind read_bytes
      rw [if_neg (by rw [List.length_take, hlen]; omega)]
    simp only [PongMessage.deserialize, dbind, hu, prepend_err, truncated]
  · by_cases h70 : 70001 ≤ m.version
    · exact consumes_take_error consumes_vm (Or.inl ⟨m, vm_roundtrip m hWF h70⟩) hk
    · exact consumes_take_error consumes_vm
        (Or.inr ⟨truncated, vm_fullfail m hWF (by omega)⟩) hk

/-- C6 witness: truncation at concrete prefixes. -/
theorem truncation_fails_named_fields_witness :
    PingMessage.deserialize ((PingMessage.serialize { nonce := 7 }).take 3) =
      Except.error { path := ["nonce"], detail := "truncated input" } ∧
    PongMessage.deserialize ((PongMessage.serialize { nonce := 7 }).take 0) =
      Except.error { path := ["nonce"], detail := "truncated input" } :=
  ⟨truncation_fails_named_fields.1 { nonce := 7 } 3 (by decide),
   truncation_fails_named_fields.2.1 { nonce := 7 } 0 (by decide)⟩

/-- C7: VersionAckMessage.serialize always returns the empty byte
sequence, and VersionAckMessage.deserialize succeeds on every input
stream, returning the whole stream as the untouched remainder. -/
theorem verack_empty_codec :
    (∀ a : VersionAckMessage, VersionAckMessage.serialize a = []) ∧
    ∀ s : List Nat, VersionAckMessage.deserialize s = Except.ok ({}, s) :=
  ⟨fun _ => rfl, fun _ => rfl⟩

/-- C8: the captured historical payload decodes to exactly the field
values asserted by the test (version 70002, services 1, timestamp
1401217254, nonce 16735069437859780935, the Satoshi user agent,
start_height 302892, relay true), and re-serializing the decoded value
reproduces the payload byte for byte. -/
theorem version_message_test_vector :
    VersionMessage.deserialize fromSat = Except.ok (satDecoded, []) ∧
    VersionMessage.serialize satDecoded = fromSat ∧
    satDecoded.version = 70002 ∧
    satDecoded.services = 1 ∧
    satDecoded.timestamp = 1401217254 ∧
    satDecoded.nonce = 16735069437859780935 ∧
    satDecoded.user_agent = asciiBytes "/Satoshi:0.9.99/" ∧
    satDecoded.start_height = 302892 ∧
    satDecoded.relay = true :=
  ⟨by decide, by decide, rfl, rfl, rfl, rfl, rfl, rfl, rfl⟩

/-- C9 counterexample: VersionMessage.new copies the service mask from
the socket rather than forcing it to zero: with a connected socket
whose services field is 1 the constructed message has services 1. -/
theorem new_services_from_socket_counterexample :
    Except.map VersionMessage.services
      (VersionMessage.new 0
        { receiver_address := Except.ok { services := 0, address := List.replicate 16 0, port := 0 },
          sender_address := Except.ok { services := 0, address := List.replicate 16 0, port := 0 },
          services := 1, user_agent := [] } 0 0) = Except.ok 1 ∧ (1 : Nat) ≠ 0 :=
  ⟨rfl, by decide⟩

/-- C9 amended: every message returned successfully by
VersionMessage.new has relay false regardless of the arguments, and
its services field equal to the socket services mask (zero only when
the socket carries zero). -/
theorem new_relay_false_services_socket :
    ∀ (ts : Int) (sock : Socket) (nonce : Nat) (sh : Int) (m : VersionMessage),
      VersionMessage.new ts sock nonce sh = Except.ok m →
      m.relay = false ∧ m.services = sock.services := by
  intro ts sock nonce sh m h
  unfold VersionMessage.new at h
  cases h1 : sock.receiver_address with
  | error e => rw [h1] at h; exact absurd h (by simp)
  | ok recv =>
    rw [h1] at h
    cases h2 : sock.sender_address with
    | error e => rw [h2] at h; exact absurd h (by simp)
    | ok send =>
      rw [h2] at h
      simp only [Except.ok.injEq] at h
      subst h
      exact ⟨rfl, rfl⟩

/-- C9 witness: the amended construction defaults at a concrete
socket. -/
theorem new_relay_false_services_socket_witness :
    msgW.relay = false ∧ msgW.services = sockW.services :=
  new_relay_false_services_socket 0 sockW 0 0 msgW rfl

/-- C10: every message returned successfully by VersionMessage.new
advertises exactly the protocol version constant, independently of
all four arguments. -/
theorem new_version_is_protocol_constant :
    ∀ (ts : Int) (sock : Socket) (nonce : Nat) (sh : Int) (m : VersionMessage),
      VersionMessage.new ts sock nonce sh = Except.ok m →
      m.version = PROTOCOL_VERSION := by
  intro ts sock nonce sh m h
  unfold VersionMessage.new at h
  cases h1 : sock.receiver_address with
  | error e => rw [h1] at h; exact absurd h (by simp)
  | ok recv =>
    rw [h1] at h
    cases h2 : sock.sender_address with
    | error e => rw [h2] at h; exact absurd h (by simp)
    | ok send =>
      rw [h2] at h
      simp only [Except.ok.injEq] at h
      subst h
      rfl

/-- C10 witness: the constant version at a concrete socket. -/
theorem new_version_is_protocol_constant_witness :
    msgW.version = PROTOCOL_VERSION :=
  new_version_is_protocol_constant 0 sockW 0 0 msgW rfl

end WizardsWallet
